import Mathlib

/-!
Verification development for the honeypot service (`src/main.py`).

The Python source is shallowly embedded: pure helpers become Lean
functions, the per-message handler becomes an explicit state
transformer on a session/store type, the callback dispatcher becomes a
function of the breaker metrics plus an oracle giving the outcome of
each network attempt, and timestamps are naturals (seconds).
-/

namespace Honeypot

/-! ## Character classes used by the precompiled regexes (main.py lines 93-95)

Python `re` semantics restricted to ASCII input, which is all the
patterns themselves mention. -/

/-- Characters admitted by `[a-zA-Z0-9.\-_]` in `UPI_PATTERN`. -/
def isUpiLocalChar (c : Char) : Bool :=
  c.isAlphanum || c = '.' || c = '-' || c = '_'

/-- Characters admitted by `[a-zA-Z]` (the UPI domain part). -/
def isReLetter (c : Char) : Bool := c.isAlpha

/-- Characters admitted by `\d`. -/
def isReDigit (c : Char) : Bool := c.isDigit

/-- Word characters for `\b` (regex `\w`): alphanumerics and underscore. -/
def isReWordChar (c : Char) : Bool := c.isAlphanum || c = '_'

/-- Whitespace for `\s` / `[^\s]`. -/
def isReSpace (c : Char) : Bool :=
  c = ' ' || c = '\t' || c = '\n' || c = '\r' || c = '\x0b' || c = '\x0c'

/-- Boolean list-prefix test. -/
def isPre : List Char → List Char → Bool
  | [], _ => true
  | _ :: _, [] => false
  | a :: as, b :: bs => a = b && isPre as bs

/-- Python `str.count(sub)`: number of non-overlapping occurrences of
`pat`, scanning left to right (`message_lower.count(keyword)`,
main.py line 296). -/
def countOccAux (pat : List Char) : Nat → List Char → Nat
  | _, [] => if pat.isEmpty then 1 else 0
  | 0, _ => 0
  | fuel + 1, c :: rest =>
    if pat ≠ [] ∧ isPre pat (c :: rest) then
      1 + countOccAux pat fuel (List.drop pat.length (c :: rest))
    else if pat.isEmpty then 1 + countOccAux pat fuel rest
    else countOccAux pat fuel rest

/-- Entry point: the scan consumes at least one character per step, so
the input length is sufficient fuel. -/
def countOcc (pat : List Char) (l : List Char) : Nat := countOccAux pat l.length l

/-- Python `str.count` on strings. -/
def pyCount (s sub : String) : Nat := countOcc sub.toList s.toList

/-- Python `str.lower()` (ASCII). -/
def pyLower (s : String) : String := (s.toList.map Char.toLower).asString

/-! ## `re.findall` for the three precompiled patterns

Each scanner reproduces the backtracking regex engine's behaviour for
its specific pattern: leftmost, non-overlapping matches, greedy
quantifiers.  For these patterns greediness never backtracks
productively (shortening a maximal character-class run always places
the follow-up literal on a character of the same class), so each
scanner can take maximal runs directly. -/

/-- `UPI_PATTERN = [a-zA-Z0-9.\-_]{2,}@[a-zA-Z]{3,}` (main.py line 93),
as `re.findall`: at each position take the maximal run of local
characters; a match needs run length at least 2, then a literal `@`,
then a maximal run of at least 3 letters.  Scanning resumes after the
match, or at the next position on failure. -/
def upiScanAux : Nat → List Char → List (List Char)
  | _, [] => []
  | 0, _ => []
  | fuel + 1, c :: rest =>
    let loc := (c :: rest).takeWhile isUpiLocalChar
    if 2 ≤ loc.length then
      match (c :: rest).drop loc.length with
      | '@' :: r2 =>
        let dom := r2.takeWhile isReLetter
        if 3 ≤ dom.length then
          (loc ++ '@' :: dom) :: upiScanAux fuel (r2.drop dom.length)
        else upiScanAux fuel rest
      | _ => upiScanAux fuel rest
    else upiScanAux fuel rest

/-- Entry point: the scan advances at least one character per step. -/
def upiScan (l : List Char) : List (List Char) := upiScanAux l.length l

/-- Right-hand `\b`: holds at end of input or before a non-word character. -/
def rightBoundary : List Char → Bool
  | [] => true
  | d :: _ => !isReWordChar d

/-- `BANK_ACCOUNT_PATTERN = \b\d{9,18}\b` (main.py line 94) as
`re.findall`.  `prevWord` records whether the character before the
current position is a word character (false at the start of input).
A match needs the left boundary, a maximal digit run of length 9-18,
and a right boundary. -/
def accScanAux : Nat → Bool → List Char → List (List Char)
  | _, _, [] => []
  | 0, _, _ => []
  | fuel + 1, prevWord, c :: rest =>
    if prevWord = false ∧ 9 ≤ ((c :: rest).takeWhile isReDigit).length ∧
        ((c :: rest).takeWhile isReDigit).length ≤ 18 ∧
        rightBoundary ((c :: rest).drop ((c :: rest).takeWhile isReDigit).length) then
      (c :: rest).takeWhile isReDigit ::
        accScanAux fuel true ((c :: rest).drop ((c :: rest).takeWhile isReDigit).length)
    else accScanAux fuel (isReWordChar c) rest

/-- Entry point: the scan advances at least one character per step. -/
def accScan (prevWord : Bool) (l : List Char) : List (List Char) :=
  accScanAux l.length prevWord l

/-- `URL_PATTERN = http[s]?://[^\s]+` (main.py line 95) as `re.findall`:
a literal `https://` or `http://` followed by a maximal nonempty run of
non-whitespace characters. -/
def urlScanAux : Nat → List Char → List (List Char)
  | _, [] => []
  | 0, _ => []
  | fuel + 1, c :: rest =>
    if isPre "https://".toList (c :: rest) &&
        1 ≤ (((c :: rest).drop 8).takeWhile (fun ch => !isReSpace ch)).length then
      let body := ((c :: rest).drop 8).takeWhile (fun ch => !isReSpace ch)
      ("https://".toList ++ body) :: urlScanAux fuel (((c :: rest).drop 8).drop body.length)
    else if isPre "http://".toList (c :: rest) &&
        1 ≤ (((c :: rest).drop 7).takeWhile (fun ch => !isReSpace ch)).length then
      let body := ((c :: rest).drop 7).takeWhile (fun ch => !isReSpace ch)
      ("http://".toList ++ body) :: urlScanAux fuel (((c :: rest).drop 7).drop body.length)
    else urlScanAux fuel rest

/-- Entry point: the scan advances at least one character per step. -/
def urlScan (l : List Char) : List (List Char) := urlScanAux l.length l

/-- `UPI_PATTERN.findall(message)` (main.py line 308). -/
def upiFindall (msg : String) : List String := (upiScan msg.toList).map List.asString

/-- `BANK_ACCOUNT_PATTERN.findall(message)` (main.py line 313). -/
def accountFindall (msg : String) : List String :=
  (accScan false msg.toList).map List.asString

/-- `URL_PATTERN.findall(message)` (main.py line 318). -/
def urlFindall (msg : String) : List String := (urlScan msg.toList).map List.asString

/-! ## Keyword vocabulary and insertion-ordered dictionaries

Python dicts preserve insertion order: updating an existing key keeps
its position, a new key is appended at the end.  `keyword_counts` and
the per-call `keywords_found` map are embedded as association lists
with exactly that update discipline. -/

/-- `SCAM_KEYWORDS` (main.py line 98). -/
def SCAM_KEYWORDS : List String :=
  ["urgent", "verify", "otp", "cvv", "block", "suspend", "winner", "prize",
   "refund", "account", "password", "confirm"]

/-- `d.get(k, 0)` on an insertion-ordered dict. -/
def alGet (k : String) : List (String × Nat) → Nat
  | [] => 0
  | (k', v) :: rest => if k' = k then v else alGet k rest

/-- `d.get(k)` returning `None` when absent. -/
def alFind (k : String) : List (String × Nat) → Option Nat
  | [] => none
  | (k', v) :: rest => if k' = k then some v else alFind k rest

/-- `d[k] = v` on an insertion-ordered dict. -/
def alSet (k : String) (v : Nat) : List (String × Nat) → List (String × Nat)
  | [] => [(k, v)]
  | (k', v') :: rest => if k' = k then (k, v) :: rest else (k', v') :: alSet k v rest

/-- `sum(d.values())`. -/
def sumVals (al : List (String × Nat)) : Nat := (al.map Prod.snd).sum

/-! ## Intelligence extraction (`extract_intelligence`, main.py lines 274-322) -/

/-- The per-call result dict `intel_extracted`. -/
structure IntelResult where
  upi : List String
  accounts : List String
  urls : List String
  keywords_found : List (String × Nat)
deriving Repr, DecidableEq

/-- The `keywords_found` map built on lines 294-299: for each vocabulary
term in order, its occurrence count in the lowercased text, recorded
only when positive. -/
def keywordsFound (msg : String) : List (String × Nat) :=
  SCAM_KEYWORDS.filterMap fun k =>
    let c := pyCount (pyLower msg) k
    if 0 < c then some (k, c) else none

/-- `keyword_score`: the sum of this call's keyword counts (line 299). -/
def perCallScore (msg : String) : Nat := sumVals (keywordsFound msg)

/-- Accumulation of this call's counts into the session's cumulative
map (lines 302-303). -/
def accumulateCounts (kwf : List (String × Nat)) (counts : List (String × Nat)) :
    List (String × Nat) :=
  kwf.foldl (fun acc p => alSet p.1 (alGet p.1 acc + p.2) acc) counts

/-- `extract_intelligence(message, session)`: returns the per-call
result and the session's updated cumulative keyword map (its only side
effect).  Messages shorter than 10 characters exit early (line 287);
the three pattern scans run only when `keyword_score > 0` (line 306). -/
def extract_intelligence (msg : String) (counts : List (String × Nat)) :
    IntelResult × List (String × Nat) :=
  if msg.length < 10 then (⟨[], [], [], []⟩, counts)
  else
    let kwf := keywordsFound msg
    let counts' := accumulateCounts kwf counts
    if 0 < perCallScore msg then
      (⟨upiFindall msg, accountFindall msg, urlFindall msg, kwf⟩, counts')
    else
      (⟨[], [], [], kwf⟩, counts')

/-! ## Session state and persona responses -/

/-- `SessionState` (main.py lines 103-113).  Timestamps are naturals;
the unused float field `scam_score` (never read or written after
initialisation) is omitted. -/
structure SessionState where
  count : Nat := 0
  intelUpi : List String := []
  intelAccounts : List String := []
  intelUrls : List String := []
  history : List (String × String) := []
  callback_sent : Bool := false
  created_at : Nat := 0
  last_accessed : Nat := 0
  last_response_category : Option String := none
  keyword_counts : List (String × Nat) := []
deriving Repr, DecidableEq

/-- `SessionState()` freshly constructed at time `now`. -/
def freshSession (now : Nat) : SessionState :=
  { created_at := now, last_accessed := now }

/-- `RESPONSES` (main.py lines 161-183). -/
def RESPONSES : String → List String
  | "early" =>
    ["Hello? Yes, I am here. What is this about?",
     "I don't understand. Can you explain slowly?",
     "Is this about my pension? I'm not good with phones.",
     "Who is calling? I can't hear you properly.",
     "Wait, let me put on my hearing aid."]
  | "middle" =>
    ["Oh no, is my account really blocked? I'm worried!",
     "What should I do? Please help me, I don't want to lose my money.",
     "Should I give you my card details? I trust you.",
     "My son told me to be careful, but you sound official.",
     "How much money do I need to pay to fix this?"]
  | "late" =>
    ["Wait, let me find my glasses. One minute please.",
     "My grandson is not home. Can you call back in 10 minutes?",
     "What is your name and company? I want to verify this.",
     "I need to write this down. Please speak slowly.",
     "Can you send me a letter instead? I don't trust phone calls."]
  | _ => []

/-- Stage selection by interaction count (main.py lines 335-340). -/
def responseCategory (count : Nat) : String :=
  if count ≤ 5 then "early" else if count ≤ 10 then "middle" else "late"

/-- `random.choice` draw, with the random pick supplied as a natural
taken modulo the list length.  Both branches of the repetition check in
`generate_response` perform the identical uniform draw (lines 346-350). -/
def pickResponse (category : String) (rand : Nat) : String :=
  let rs := RESPONSES category
  rs.getD (rand % rs.length) ""

/-- `generate_response(session)` (main.py lines 327-355): returns the
drawn reply and the session with `last_response_category` recorded. -/
def generate_response (s : SessionState) (rand : Nat) : String × SessionState :=
  let category := responseCategory s.count
  let response := pickResponse category rand
  (response, { s with last_response_category := some category })

/-- `MAX_CONVERSATION_HISTORY` (main.py line 52). -/
def MAX_CONVERSATION_HISTORY : Nat := 10

/-- History trimming (main.py lines 522-523): after appending, when the
length exceeds 10 keep only the last 10 entries (`history[-10:]`). -/
def trimHistory (h : List (String × String)) : List (String × String) :=
  if MAX_CONVERSATION_HISTORY < h.length then h.drop (h.length - MAX_CONVERSATION_HISTORY)
  else h

/-- Whether this call's extraction found sensitive data
(`has_sensitive_data`, main.py line 527). -/
def hasSensitive (intel : IntelResult) : Bool :=
  !intel.upi.isEmpty || !intel.accounts.isEmpty || !intel.urls.isEmpty

/-- The per-session body of the `/honeypot` handler for an accepted
message (main.py lines 506-536): touch, increment, extract, append
intel, draw a reply, append/trim history, then evaluate the callback
trigger.  Returns the updated session, the reply, and whether a
callback dispatch was scheduled this message. -/
def processSession (s : SessionState) (msg : String) (now rand : Nat) :
    SessionState × String × Bool :=
  let s1 := { s with last_accessed := now }
  let s2 := { s1 with count := s1.count + 1 }
  let ex := extract_intelligence msg s2.keyword_counts
  let intel := ex.1
  let s3 := { s2 with keyword_counts := ex.2 }
  let s4 := { s3 with
    intelUpi := s3.intelUpi ++ intel.upi,
    intelAccounts := s3.intelAccounts ++ intel.accounts,
    intelUrls := s3.intelUrls ++ intel.urls }
  let gr := generate_response s4 rand
  let reply := gr.1
  let s5 := gr.2
  let s6 := { s5 with history := trimHistory (s5.history ++ [(msg, reply)]) }
  let total_keyword_score := sumVals s6.keyword_counts
  let scam_confirmed := decide (3 ≤ total_keyword_score) && hasSensitive intel
  let should_callback := (decide (15 ≤ s6.count) || scam_confirmed) && !s6.callback_sent
  let s7 := if should_callback then { s6 with callback_sent := true } else s6
  (s7, reply, should_callback)

/-! ## Session store (main.py lines 116, 447-456, 494-503)

`sessions` is an `OrderedDict`: a recency-ordered association list,
least-recently-touched first.  New keys are appended at the end; every
handled message moves its session to the end. -/

/-- The session store: keys with their states, oldest-touched first. -/
abbrev Store := List (String × SessionState)

/-- `MAX_SESSIONS` (main.py line 50). -/
def MAX_SESSIONS : Nat := 500

/-- `enforce_session_limit()` (main.py lines 447-456): while the store
holds more than 500 sessions, delete the first (least-recently-used)
entry. -/
def enforceAux : Nat → Store → Store
  | 0, st => st
  | fuel + 1, st => if MAX_SESSIONS < st.length then enforceAux fuel st.tail else st

/-- Entry point: each iteration removes one entry, so the store size is
sufficient fuel. -/
def enforce_session_limit (st : Store) : Store := enforceAux st.length st

/-- `sessions[id]` lookup. -/
def storeGet (st : Store) (id : String) : Option SessionState :=
  (st.find? (fun p => p.1 == id)).map Prod.snd

/-- `sessions.move_to_end(id)`: reposition the entry for `id` at the
(most-recently-used) end. -/
def moveToEnd (st : Store) (id : String) : Store :=
  match storeGet st id with
  | some s => st.filter (fun p => p.1 != id) ++ [(id, s)]
  | none => st

/-- In-place mutation of the session object stored under `id`: the
entry keeps its position, its state is replaced. -/
def updateAt (st : Store) (id : String) (f : SessionState → SessionState) : Store :=
  st.map fun p => if p.1 == id then (p.1, f p.2) else p

/-- Lines 494-499: register a fresh session when the identifier is
unseen (new dict keys go to the end), then enforce the capacity
limit. -/
def stAfterCreate (st : Store) (id : String) (now : Nat) : Store :=
  if (storeGet st id).isSome then st
  else enforce_session_limit (st ++ [(id, freshSession now)])

/-- The `/honeypot` handler for an accepted message (main.py lines
493-536) at store level: create the session if absent (which triggers
the capacity check), move it to the most-recently-used end, then run
the per-session body (the session is necessarily present, so the
lookup default is never used).  Returns the store, the reply, and
whether a dispatch was scheduled. -/
def handleMessage (st : Store) (id msg : String) (now rand : Nat) :
    Store × String × Bool :=
  let st2 := moveToEnd (stAfterCreate st id now) id
  let s := (storeGet st2 id).getD (freshSession now)
  let r := processSession s msg now rand
  (updateAt st2 id (fun _ => r.1), r.2.1, r.2.2)

/-! ## Callback dispatcher (`send_callback`, main.py lines 360-442)

Each network attempt's outcome is supplied by an oracle: either an
HTTP response with some status code, or a raised transport error.
Time stands still within a dispatch (`now` is the dispatch's clock). -/

/-- Outcome of one `callback_client.post` attempt. -/
inductive AttemptOutcome where
  | response (status : Nat)
  | transportError
deriving DecidableEq, Repr

/-- `MAX_CALLBACK_RETRIES` (main.py line 60). -/
def MAX_CALLBACK_RETRIES : Nat := 3

/-- `CIRCUIT_BREAKER_THRESHOLD` (main.py line 61). -/
def CIRCUIT_BREAKER_THRESHOLD : Nat := 5

/-- `CIRCUIT_BREAKER_TIMEOUT` (main.py line 62). -/
def CIRCUIT_BREAKER_TIMEOUT : Nat := 300

/-- The process-wide dispatcher bookkeeping held in `metrics`
(main.py lines 73-81). -/
structure CbMetrics where
  total_callbacks_sent : Nat := 0
  total_callbacks_failed : Nat := 0
  circuit_breaker_active : Bool := false
  circuit_breaker_until : Nat := 0
deriving Repr, DecidableEq

/-- The retry loop (main.py lines 408-428) from attempt index `i`:
status 200 returns success immediately; any other status moves to the
next attempt with no sleep; a transport error sleeps `2^i` seconds
first unless this was the final attempt.  Returns (delivered, number
of attempts made, sleeps performed in order). -/
def runAttemptsAux (oracle : Nat → AttemptOutcome) : Nat → Nat → Bool × Nat × List Nat
  | 0, i => (false, i, [])
  | fuel + 1, i =>
    if i < MAX_CALLBACK_RETRIES then
      match oracle i with
      | .response status =>
        if status = 200 then (true, i + 1, [])
        else runAttemptsAux oracle fuel (i + 1)
      | .transportError =>
        let r := runAttemptsAux oracle fuel (i + 1)
        (r.1, r.2.1, (if i < MAX_CALLBACK_RETRIES - 1 then [2 ^ i] else []) ++ r.2.2)
    else (false, i, [])

/-- Entry point: at most `MAX_CALLBACK_RETRIES - i` further attempts
remain. -/
def runAttempts (oracle : Nat → AttemptOutcome) (i : Nat) : Bool × Nat × List Nat :=
  runAttemptsAux oracle (MAX_CALLBACK_RETRIES - i) i

/-- Observable outcome of one `send_callback` dispatch. -/
structure CbResult where
  metrics : CbMetrics
  delivered : Bool
  attempts : Nat
  sleeps : List Nat
  queuedFailure : Bool
deriving Repr, DecidableEq

/-- `send_callback(session_id, session_data)` (main.py lines 360-442):
circuit-breaker gate, retry loop, then success/failure bookkeeping.
`queuedFailure` records the append to the diagnostic
`failed_callbacks` queue. -/
def send_callback (m : CbMetrics) (now : Nat) (oracle : Nat → AttemptOutcome) : CbResult :=
  if m.circuit_breaker_active && decide (now < m.circuit_breaker_until) then
    ⟨m, false, 0, [], false⟩
  else
    let m0 := if m.circuit_breaker_active then
        { m with circuit_breaker_active := false, total_callbacks_failed := 0 }
      else m
    let r := runAttempts oracle 0
    if r.1 then
      ⟨{ m0 with total_callbacks_sent := m0.total_callbacks_sent + 1 },
        true, r.2.1, r.2.2, false⟩
    else
      let m1 := { m0 with total_callbacks_failed := m0.total_callbacks_failed + 1 }
      let m2 := if CIRCUIT_BREAKER_THRESHOLD ≤ m1.total_callbacks_failed then
          { m1 with circuit_breaker_active := true,
                    circuit_breaker_until := now + CIRCUIT_BREAKER_TIMEOUT }
        else m1
      ⟨m2, false, r.2.1, r.2.2, true⟩

/-! ## Execution-order trace of the handler tail

For the temporal claim about the trigger block (main.py lines 532-536)
the handler body is abstracted to its ordered sequence of actions.
`awaitExtract` marks the sole `await` expression in the body (line
510); `scheduleDispatch` is the `asyncio.create_task` call (line 534)
and `setCallbackSent` the flag assignment (line 535). -/

/-- One action of the handler body, in program order. -/
inductive HEvent where
  | touchSession | setLastAccessed | incrementCount | awaitExtract
  | appendIntel | generateReply | appendHistory
  | scheduleDispatch | setCallbackSent | respond
deriving DecidableEq, Repr

/-- The ordered actions the handler performs for an accepted message on
session state `s` (main.py lines 502-541). -/
def honeypotEvents (s : SessionState) (msg : String) (now rand : Nat) : List HEvent :=
  [.touchSession, .setLastAccessed, .incrementCount, .awaitExtract,
   .appendIntel, .generateReply, .appendHistory]
  ++ (if (processSession s msg now rand).2.2 then
        [.scheduleDispatch, .setCallbackSent] else [])
  ++ [.respond]

/-! ## Fault containment (main.py lines 487-548)

The whole message-handling body sits in one `try` whose `except`
returns a fixed fallback reply (lines 543-548).  Python mutates the
session object in place, so a fault raised after `k` mutating steps
leaves exactly those `k` steps applied.  `hpMutation` lists the
store-mutating steps of the body in program order. -/

/-- The per-call findings of `extract_intelligence`, which do not
depend on the session's cumulative map. -/
def msgFindings (msg : String) : IntelResult := (extract_intelligence msg []).1

/-- The trigger predicate of lines 526-530 evaluated on a session whose
count and keyword map are already updated. -/
def shouldFire (s : SessionState) (intel : IntelResult) : Bool :=
  (decide (15 ≤ s.count) ||
    (decide (3 ≤ sumVals s.keyword_counts) && hasSensitive intel)) && !s.callback_sent

/-- Store-mutating step `i` of the handler body, in program order:
session creation and capacity eviction, LRU touch, access-time update,
count increment, cumulative keyword update (inside
`extract_intelligence`), intel append, reply-category record, history
append/trim, and the trigger block. -/
def hpMutation (id msg : String) (now rand : Nat) : Nat → Store → Store
  | 0, st => stAfterCreate st id now
  | 1, st => moveToEnd st id
  | 2, st => updateAt st id (fun s => { s with last_accessed := now })
  | 3, st => updateAt st id (fun s => { s with count := s.count + 1 })
  | 4, st => updateAt st id (fun s =>
      { s with keyword_counts := (extract_intelligence msg s.keyword_counts).2 })
  | 5, st => updateAt st id (fun s => { s with
      intelUpi := s.intelUpi ++ (msgFindings msg).upi,
      intelAccounts := s.intelAccounts ++ (msgFindings msg).accounts,
      intelUrls := s.intelUrls ++ (msgFindings msg).urls })
  | 6, st => updateAt st id (fun s =>
      { s with last_response_category := some (responseCategory s.count) })
  | 7, st => updateAt st id (fun s =>
      let reply := pickResponse (responseCategory s.count) rand
      { s with history := trimHistory (s.history ++ [(msg, reply)]) })
  | 8, st => updateAt st id (fun s =>
      if shouldFire s (msgFindings msg) then { s with callback_sent := true } else s)
  | _, st => st

/-- The fallback reply of the `except` handler (main.py line 547). -/
def fallbackReply : String := "I’m not sure what you mean. Can you explain?"

/-- A handler run on which an internal fault is raised after `k`
mutating steps: those steps' effects persist and the caller receives
the fixed fallback reply. -/
def honeypotFaulted (st : Store) (id msg : String) (now rand : Nat) (k : Nat) :
    Store × String :=
  ((List.range (min k 9)).foldl (fun acc i => hpMutation id msg now rand i acc) st,
   fallbackReply)

/-! ## Multi-message runs of one session -/

/-- One message's inputs: text, arrival time, random draw. -/
abbrev MsgInput := String × Nat × Nat

/-- Number of callback dispatches scheduled over a run of messages. -/
def countDispatches (s : SessionState) : List MsgInput → Nat
  | [] => 0
  | (m, t, r) :: rest =>
    let p := processSession s m t r
    (if p.2.2 then 1 else 0) + countDispatches p.1 rest

/-- Number of false-to-true transitions of `callback_sent` over a run. -/
def countFlips (s : SessionState) : List MsgInput → Nat
  | [] => 0
  | (m, t, r) :: rest =>
    let p := processSession s m t r
    (if !s.callback_sent && p.1.callback_sent then 1 else 0) + countFlips p.1 rest

/-! ## Per-message facts about the trigger and the sent flag -/

/-- After a message, the sent flag is the old flag or-ed with whether
this message fired the trigger. -/
theorem processSession_sent_after (s : SessionState) (m : String) (t r : Nat) :
    (processSession s m t r).1.callback_sent =
      (s.callback_sent || (processSession s m t r).2.2) := by
  cases hs : s.callback_sent <;> simp [processSession, generate_response, hs] <;>
    split <;> simp_all

/-- A session whose flag is already set never fires the trigger. -/
theorem processSession_no_refire (s : SessionState) (m : String) (t r : Nat)
    (h : s.callback_sent = true) : (processSession s m t r).2.2 = false := by
  simp [processSession, generate_response, h]

/-- Once set, the flag stays set. -/
theorem processSession_sent_mono (s : SessionState) (m : String) (t r : Nat)
    (h : s.callback_sent = true) : (processSession s m t r).1.callback_sent = true := by
  rw [processSession_sent_after, h, Bool.true_or]

theorem countDispatches_of_sent (msgs : List MsgInput) :
    ∀ s : SessionState, s.callback_sent = true → countDispatches s msgs = 0 := by
  induction msgs with
  | nil => intro s _; rfl
  | cons hd tl ih =>
    intro s hs
    obtain ⟨m, t, r⟩ := hd
    simp only [countDispatches, processSession_no_refire s m t r hs, if_neg]
    simpa using ih _ (processSession_sent_mono s m t r hs)

theorem countFlips_of_sent (msgs : List MsgInput) :
    ∀ s : SessionState, s.callback_sent = true → countFlips s msgs = 0 := by
  induction msgs with
  | nil => intro s _; rfl
  | cons hd tl ih =>
    intro s hs
    obtain ⟨m, t, r⟩ := hd
    simp only [countFlips, hs, Bool.not_true, Bool.false_and, if_neg, Bool.false_eq_true,
      not_false_iff, zero_add]
    exact ih _ (processSession_sent_mono s m t r hs)

/-- C1: over any run of messages, a session schedules at most one
callback dispatch, and its `callback_sent` flag makes at most one
false-to-true transition. -/
theorem C1_at_most_one_dispatch (s : SessionState) (msgs : List MsgInput) :
    countDispatches s msgs ≤ 1 ∧ countFlips s msgs ≤ 1 := by
  induction msgs generalizing s with
  | nil => exact ⟨Nat.zero_le 1, Nat.zero_le 1⟩
  | cons hd tl ih =>
    obtain ⟨m, t, r⟩ := hd
    constructor
    · simp only [countDispatches]
      cases hf : (processSession s m t r).2.2 with
      | false => simpa using (ih _).1
      | true =>
        have hsent : (processSession s m t r).1.callback_sent = true := by
          rw [processSession_sent_after, hf, Bool.or_true]
        simp [countDispatches_of_sent tl _ hsent]
    · simp only [countFlips]
      cases hs : s.callback_sent with
      | true =>
        simp only [hs, Bool.not_true, Bool.false_and, if_neg, Bool.false_eq_true,
          not_false_iff, zero_add]
        exact (ih _).2
      | false =>
        cases hafter : (processSession s m t r).1.callback_sent with
        | false => simpa [hs, hafter] using (ih _).2
        | true => simp [hs, hafter, countFlips_of_sent tl _ hafter]

/-- C2: the trigger fires exactly when ((the cumulative keyword score
after this call's accumulation is at least 3 and this call's extraction
found a UPI, account, or URL match) or the interaction count — already
incremented for this message — is at least 15), and the sent flag was
still false. -/
theorem C2_trigger_iff (s : SessionState) (msg : String) (now rand : Nat) :
    (processSession s msg now rand).2.2 = true ↔
      (((3 ≤ sumVals (extract_intelligence msg s.keyword_counts).2 ∧
          hasSensitive (extract_intelligence msg s.keyword_counts).1 = true) ∨
        15 ≤ s.count + 1) ∧ s.callback_sent = false) := by
  simp only [processSession, generate_response, Bool.and_eq_true, Bool.or_eq_true,
    decide_eq_true_eq, Bool.not_eq_true']
  tauto

/-! ## C3: order of flag assignment and dispatch scheduling -/

/-- C3 counterexample: on a firing message (here the 15th interaction),
the handler schedules the dispatch task strictly before it assigns
`callback_sent = True` (main.py lines 534-535), so the flag assignment
does not precede the scheduling. -/
theorem C3_counterexample :
    (processSession { count := 14 } "hello kind sir" 0 0).2.2 = true ∧
    List.indexOf HEvent.scheduleDispatch
        (honeypotEvents { count := 14 } "hello kind sir" 0 0) <
      List.indexOf HEvent.setCallbackSent
        (honeypotEvents { count := 14 } "hello kind sir" 0 0) := by
  constructor
  · decide
  · decide

/-- C3 amended: when the trigger fires the handler performs, in order,
its earlier per-message actions (the only `await` expression among
them), then schedules the dispatch, then immediately sets the sent
flag, then responds — scheduling and flag assignment are adjacent
synchronous actions with no suspension point between them. -/
theorem C3_schedule_then_flag (s : SessionState) (msg : String) (now rand : Nat)
    (h : (processSession s msg now rand).2.2 = true) :
    honeypotEvents s msg now rand =
      [.touchSession, .setLastAccessed, .incrementCount, .awaitExtract,
       .appendIntel, .generateReply, .appendHistory,
       .scheduleDispatch, .setCallbackSent, .respond] := by
  simp [honeypotEvents, h]

theorem C3_schedule_then_flag_witness :
    honeypotEvents { count := 14 } "please help me sir" 0 0 =
      [.touchSession, .setLastAccessed, .incrementCount, .awaitExtract,
       .appendIntel, .generateReply, .appendHistory,
       .scheduleDispatch, .setCallbackSent, .respond] :=
  C3_schedule_then_flag { count := 14 } "please help me sir" 0 0 (by decide)

/-! ## C9: conversation history bound -/

theorem processSession_history (s : SessionState) (m : String) (t r : Nat) :
    (processSession s m t r).1.history =
      trimHistory (s.history ++ [(m, (processSession s m t r).2.1)]) := by
  simp only [processSession, generate_response]
  split <;> rfl

theorem trimHistory_length_le (h : List (String × String)) :
    (trimHistory h).length ≤ MAX_CONVERSATION_HISTORY := by
  unfold trimHistory MAX_CONVERSATION_HISTORY
  split
  · simp only [List.length_drop]; omega
  · omega

theorem trimHistory_suffix (h : List (String × String)) : trimHistory h <:+ h := by
  unfold trimHistory
  split
  · exact List.drop_suffix _ _
  · exact List.suffix_refl _

theorem trimHistory_eq_of_eleven (h : List (String × String)) (hyp : h.length = 11) :
    trimHistory h = h.drop 1 := by
  simp [trimHistory, MAX_CONVERSATION_HISTORY, hyp]

/-- C9: the stored history never exceeds 10 entries, is always a
suffix of the old history with the new (incoming, reply) pair appended
(so the surviving entries keep their order), and appending an 11th
pair drops exactly the oldest entry. -/
theorem C9_history_bound (s : SessionState) (msg : String) (now rand : Nat) :
    (processSession s msg now rand).1.history.length ≤ 10 ∧
    (processSession s msg now rand).1.history <:+
      (s.history ++ [(msg, (processSession s msg now rand).2.1)]) ∧
    (s.history.length = 10 →
      (processSession s msg now rand).1.history =
        s.history.tail ++ [(msg, (processSession s msg now rand).2.1)]) := by
  refine ⟨?_, ?_, ?_⟩
  · rw [processSession_history]; exact trimHistory_length_le _
  · rw [processSession_history]; exact trimHistory_suffix _
  · intro h10
    rw [processSession_history]
    have hlen : (s.history ++ [(msg, (processSession s msg now rand).2.1)]).length = 11 := by
      simp [h10]
    rw [trimHistory_eq_of_eleven _ hlen]
    cases hsh : s.history with
    | nil => rw [hsh] at h10; simp at h10
    | cons a l => simp [hsh]

/-- A concrete session with ten history entries. -/
def histTen : List (String × String) :=
  [("m1", "r"), ("m2", "r"), ("m3", "r"), ("m4", "r"), ("m5", "r"),
   ("m6", "r"), ("m7", "r"), ("m8", "r"), ("m9", "r"), ("m10", "r")]

theorem C9_history_bound_witness :
    (processSession { history := histTen } "hello kind sir" 0 0).1.history =
      histTen.tail ++
        [("hello kind sir", (processSession { history := histTen } "hello kind sir" 0 0).2.1)] :=
  (C9_history_bound { history := histTen } "hello kind sir" 0 0).2.2 (by rfl)

/-! ## C7: length gate and lazy pattern extraction -/

/-- On a long-enough message the per-call keyword map and the updated
cumulative map are as computed by `keywordsFound`/`accumulateCounts`,
whether or not the pattern scans ran. -/
theorem extract_keywords_spec (msg : String) (counts : List (String × Nat))
    (h : 10 ≤ msg.length) :
    (extract_intelligence msg counts).1.keywords_found = keywordsFound msg ∧
    (extract_intelligence msg counts).2 = accumulateCounts (keywordsFound msg) counts := by
  have hn : ¬ msg.length < 10 := by omega
  unfold extract_intelligence
  rw [if_neg hn]
  by_cases hp : 0 < perCallScore msg <;> simp [hp]

/-- C7 counterexample: `"urgent a@bcd"` is 12 characters long and
contains the scoring keyword `urgent`, so the pattern scans do run,
yet the UPI-shaped substring `a@bcd` is not extracted: `UPI_PATTERN`
requires a local part of at least two characters. -/
theorem C7_counterexample :
    10 ≤ ("urgent a@bcd" : String).length ∧
    0 < perCallScore "urgent a@bcd" ∧
    (extract_intelligence "urgent a@bcd" []).1.upi = [] := by
  refine ⟨by decide, by decide, by decide⟩

/-- C7 amended: a message shorter than 10 characters yields the empty
result (no keyword counts, no matches, cumulative map untouched); on a
message of length at least 10 the three pattern scans run exactly when
the per-call keyword score is positive — so a substring that itself
matches `UPI_PATTERN` (local part of at least 2 characters, such as
`ab@bcd`) is extracted alongside a scoring keyword, while `a@bcd` is
not a match of the pattern. -/
theorem C7_length_gate_and_lazy_scan (msg : String) (counts : List (String × Nat)) :
    (msg.length < 10 →
      extract_intelligence msg counts = (⟨[], [], [], []⟩, counts)) ∧
    (10 ≤ msg.length →
      (perCallScore msg = 0 →
        (extract_intelligence msg counts).1.upi = [] ∧
        (extract_intelligence msg counts).1.accounts = [] ∧
        (extract_intelligence msg counts).1.urls = []) ∧
      (0 < perCallScore msg →
        (extract_intelligence msg counts).1.upi = upiFindall msg ∧
        (extract_intelligence msg counts).1.accounts = accountFindall msg ∧
        (extract_intelligence msg counts).1.urls = urlFindall msg)) ∧
    (extract_intelligence "urgent ab@bcd" []).1.upi = ["ab@bcd"] := by
  refine ⟨?_, ?_, by decide⟩
  · intro h
    simp [extract_intelligence, h]
  · intro h10
    have hn : ¬ msg.length < 10 := by omega
    constructor
    · intro h0
      simp [extract_intelligence, hn, h0]
    · intro hpos
      simp [extract_intelligence, hn, hpos]

theorem C7_length_gate_and_lazy_scan_witness :
    extract_intelligence "Hi" [("urgent", 1)] = (⟨[], [], [], []⟩, [("urgent", 1)]) ∧
    (extract_intelligence "hello there friend" []).1.upi = [] ∧
    (extract_intelligence "urgent pay ab@okaxis" []).1.upi = upiFindall "urgent pay ab@okaxis" := by
  refine ⟨(C7_length_gate_and_lazy_scan "Hi" [("urgent", 1)]).1 (by decide), ?_, ?_⟩
  · exact (((C7_length_gate_and_lazy_scan "hello there friend" []).2.1 (by decide)).1
      (by decide)).1
  · exact (((C7_length_gate_and_lazy_scan "urgent pay ab@okaxis" []).2.1 (by decide)).2
      (by decide)).1

/-! ## C10: raw substring counting of keywords -/

theorem alGet_alSet_same (k : String) (v : Nat) (al : List (String × Nat)) :
    alGet k (alSet k v al) = v := by
  induction al with
  | nil => simp [alSet, alGet]
  | cons p rest ih =>
    obtain ⟨k', v'⟩ := p
    by_cases h : k' = k <;> simp [alSet, alGet, h, ih]

theorem alGet_alSet_other (x k : String) (v : Nat) (al : List (String × Nat))
    (h : x ≠ k) : alGet k (alSet x v al) = alGet k al := by
  induction al with
  | nil => simp [alSet, alGet, h]
  | cons p rest ih =>
    obtain ⟨k', v'⟩ := p
    by_cases hk : k' = x
    · subst hk
      simp [alSet, alGet, h]
    · simp [alSet, alGet, hk, ih]

theorem alFind_eq_none_of_not_mem (k : String) (kwf : List (String × Nat))
    (h : k ∉ kwf.map Prod.fst) : alFind k kwf = none := by
  induction kwf with
  | nil => rfl
  | cons p rest ih =>
    obtain ⟨k', v'⟩ := p
    simp only [List.map_cons, List.mem_cons] at h
    push_neg at h
    have hne : ¬ (k' = k) := fun he => h.1 he.symm
    simp [alFind, hne, ih h.2]

theorem alGet_accumulate (k : String) (kwf counts : List (String × Nat))
    (hnd : (kwf.map Prod.fst).Nodup) :
    alGet k (accumulateCounts kwf counts) =
      alGet k counts + (alFind k kwf).getD 0 := by
  induction kwf generalizing counts with
  | nil => simp [accumulateCounts, alFind]
  | cons p rest ih =>
    obtain ⟨x, v⟩ := p
    simp only [List.map_cons, List.nodup_cons] at hnd
    have hacc : accumulateCounts ((x, v) :: rest) counts =
        accumulateCounts rest (alSet x (alGet x counts + v) counts) := rfl
    rw [hacc, ih _ hnd.2]
    by_cases h : x = k
    · subst h
      rw [alGet_alSet_same, alFind_eq_none_of_not_mem x rest hnd.1]
      simp [alFind]
    · rw [alGet_alSet_other x k _ counts h]
      simp [alFind, h]

/-- The keys produced by the per-call filter are a sublist of the
scanned vocabulary. -/
theorem keys_filterMap_sublist (lo : String) (l : List String) :
    ((l.filterMap fun k =>
        let c := pyCount lo k
        if 0 < c then some (k, c) else none).map Prod.fst).Sublist l := by
  induction l with
  | nil => simp
  | cons x t ih =>
    by_cases h : 0 < pyCount lo x
    · simpa [List.filterMap_cons, h] using List.Sublist.cons₂ x ih
    · simpa [List.filterMap_cons, h] using List.Sublist.cons x ih

theorem alFind_keywordsFound (msg : String) (k : String) (hk : k ∈ SCAM_KEYWORDS) :
    alFind k (keywordsFound msg) =
      (if 0 < pyCount (pyLower msg) k then some (pyCount (pyLower msg) k) else none) := by
  have hnd : SCAM_KEYWORDS.Nodup := by decide
  unfold keywordsFound
  revert hk hnd
  generalize SCAM_KEYWORDS = l
  induction l with
  | nil => intro hk _; simp at hk
  | cons x t ih =>
    intro hk hnd
    simp only [List.nodup_cons] at hnd
    rcases List.mem_cons.mp hk with h | h
    · subst h
      by_cases hc : 0 < pyCount (pyLower msg) k
      · simp [List.filterMap_cons, hc, alFind]
      · have hnone : alFind k (t.filterMap fun k =>
            let c := pyCount (pyLower msg) k
            if 0 < c then some (k, c) else none) = none := by
          apply alFind_eq_none_of_not_mem
          intro hmem
          exact hnd.1 ((keys_filterMap_sublist (pyLower msg) t).subset hmem)
        simp [List.filterMap_cons, hc, hnone]
    · by_cases hx : x = k
      · exact absurd (hx ▸ h) hnd.1
      · by_cases hc : 0 < pyCount (pyLower msg) x <;>
          simp [List.filterMap_cons, hc, alFind, hx, ih h hnd.2]

/-- C10: on a message of length at least 10, each vocabulary term's
per-call entry is its raw (non-overlapping) substring occurrence count
in the lowercased text — recorded exactly when positive — and the
session's cumulative count for that term grows by the same amount; so
a keyword embedded inside a longer word still counts. -/
theorem C10_keyword_substring_count (msg : String) (counts : List (String × Nat))
    (k : String) (hlen : 10 ≤ msg.length) (hk : k ∈ SCAM_KEYWORDS) :
    alFind k (extract_intelligence msg counts).1.keywords_found =
      (if 0 < pyCount (pyLower msg) k then some (pyCount (pyLower msg) k) else none) ∧
    alGet k (extract_intelligence msg counts).2 =
      alGet k counts + pyCount (pyLower msg) k := by
  obtain ⟨h1, h2⟩ := extract_keywords_spec msg counts hlen
  constructor
  · rw [h1]
    exact alFind_keywordsFound msg k hk
  · rw [h2]
    have hsub : ((keywordsFound msg).map Prod.fst).Sublist SCAM_KEYWORDS :=
      keys_filterMap_sublist (pyLower msg) SCAM_KEYWORDS
    have hnd : ((keywordsFound msg).map Prod.fst).Nodup :=
      List.Nodup.sublist hsub (by decide)
    rw [alGet_accumulate k _ counts hnd, alFind_keywordsFound msg k hk]
    by_cases hc : 0 < pyCount (pyLower msg) k
    · simp [hc]
    · simp [hc]
      omega

theorem C10_keyword_substring_count_witness :
    (alFind "confirm" (extract_intelligence "please confirmation sir" []).1.keywords_found =
      (if 0 < pyCount (pyLower "please confirmation sir") "confirm" then
        some (pyCount (pyLower "please confirmation sir") "confirm") else none)) ∧
    alGet "confirm" (extract_intelligence "please confirmation sir" []).2 =
      alGet "confirm" ([] : List (String × Nat)) +
        pyCount (pyLower "please confirmation sir") "confirm" :=
  C10_keyword_substring_count "please confirmation sir" [] "confirm" (by decide) (by decide)

/-! ## C4: circuit breaker -/

/-- C4 counterexample: starting from four accumulated failures, a fully
failing dispatch opens the breaker, but the consecutive-failure counter
is left at 5 — it is not reset to zero at the instant the breaker
opens (main.py lines 431-437 increment and open without resetting). -/
theorem C4_counterexample :
    (send_callback { total_callbacks_failed := 4 } 100
        (fun _ => .response 500)).metrics.circuit_breaker_active = true ∧
    (send_callback { total_callbacks_failed := 4 } 100
        (fun _ => .response 500)).metrics.total_callbacks_failed = 5 := by
  exact ⟨by decide, by decide⟩

/-- C4 amended: (i) a dispatch while the breaker is open before its
deadline is skipped — no delivery attempt, no sleeps, no queueing, and
the metrics (including the failure counter) unchanged; (ii) once the
deadline has passed, the next dispatch behaves exactly as it would
with the breaker closed and the counter reset to zero — the reset
happens at close, not at open; (iii) when a fully failed dispatch
brings the counter to the threshold of 5, the breaker opens with a
300-second deadline and the counter keeps its incremented value
(it is not reset to zero at that instant). -/
theorem C4_circuit_breaker (m : CbMetrics) (now : Nat) (oracle : Nat → AttemptOutcome) :
    (m.circuit_breaker_active = true → now < m.circuit_breaker_until →
      send_callback m now oracle = ⟨m, false, 0, [], false⟩) ∧
    (m.circuit_breaker_active = true → m.circuit_breaker_until ≤ now →
      send_callback m now oracle =
        send_callback
          { m with circuit_breaker_active := false, total_callbacks_failed := 0 }
          now oracle) ∧
    (m.circuit_breaker_active = false → (runAttempts oracle 0).1 = false →
      CIRCUIT_BREAKER_THRESHOLD ≤ m.total_callbacks_failed + 1 →
      (send_callback m now oracle).metrics.circuit_breaker_active = true ∧
      (send_callback m now oracle).metrics.circuit_breaker_until =
        now + CIRCUIT_BREAKER_TIMEOUT ∧
      (send_callback m now oracle).metrics.total_callbacks_failed =
        m.total_callbacks_failed + 1) := by
  refine ⟨?_, ?_, ?_⟩
  · intro ha hlt
    simp [send_callback, ha, hlt]
  · intro ha hge
    have hnlt : ¬ now < m.circuit_breaker_until := by omega
    simp [send_callback, ha, hnlt]
  · intro ha hfail hth
    simp only [send_callback, ha, Bool.false_and, Bool.false_eq_true, if_false, if_neg,
      not_false_iff]
    simp [hfail, hth]

theorem C4_circuit_breaker_witness :
    (send_callback
        { total_callbacks_failed := 5, circuit_breaker_active := true,
          circuit_breaker_until := 400 } 399 (fun _ => .response 200) =
      ⟨{ total_callbacks_failed := 5, circuit_breaker_active := true,
         circuit_breaker_until := 400 }, false, 0, [], false⟩) ∧
    (send_callback
        { total_callbacks_failed := 5, circuit_breaker_active := true,
          circuit_breaker_until := 400 } 400 (fun _ => .response 200) =
      send_callback
        { total_callbacks_failed := 0, circuit_breaker_active := false,
          circuit_breaker_until := 400 } 400 (fun _ => .response 200)) ∧
    ((send_callback { total_callbacks_failed := 4 } 100
        (fun _ => .transportError)).metrics.circuit_breaker_active = true ∧
      (send_callback { total_callbacks_failed := 4 } 100
        (fun _ => .transportError)).metrics.circuit_breaker_until =
          100 + CIRCUIT_BREAKER_TIMEOUT ∧
      (send_callback { total_callbacks_failed := 4 } 100
        (fun _ => .transportError)).metrics.total_callbacks_failed = 4 + 1) := by
  refine ⟨?_, ?_, ?_⟩
  · exact (C4_circuit_breaker _ 399 _).1 (by decide) (by decide)
  · exact (C4_circuit_breaker _ 400 _).2.1 (by decide) (by decide)
  · exact (C4_circuit_breaker { total_callbacks_failed := 4 } 100 _).2.2
      (by decide) (by decide) (by decide)

/-! ## C5: retry count and backoff sleeps -/

/-- The sleeps a dispatch performs between attempt indices `i`
(inclusive) and `j` (exclusive): `2^idx` seconds for each attempt that
raised a transport error and was not the final possible attempt. -/
def sleepsSpec (oracle : Nat → AttemptOutcome) (i j : Nat) : List Nat :=
  (List.range (j - i)).filterMap fun d =>
    if oracle (i + d) = .transportError ∧ i + d < MAX_CALLBACK_RETRIES - 1 then
      some (2 ^ (i + d)) else none

theorem sleepsSpec_self (oracle : Nat → AttemptOutcome) (i : Nat) :
    sleepsSpec oracle i i = [] := by
  simp [sleepsSpec]

theorem sleepsSpec_cons (oracle : Nat → AttemptOutcome) (i j : Nat) (h : i < j) :
    sleepsSpec oracle i j =
      (if oracle i = .transportError ∧ i < MAX_CALLBACK_RETRIES - 1 then
        [2 ^ i] else []) ++ sleepsSpec oracle (i + 1) j := by
  unfold sleepsSpec
  have hj : j - i = (j - (i + 1)) + 1 := by omega
  rw [hj, List.range_succ_eq_map, List.filterMap_cons]
  have hshift : List.filterMap
      ((fun d => if oracle (i + d) = AttemptOutcome.transportError ∧
          i + d < MAX_CALLBACK_RETRIES - 1 then some (2 ^ (i + d)) else none) ∘ Nat.succ)
      (List.range (j - (i + 1))) =
    List.filterMap
      (fun d => if oracle (i + 1 + d) = AttemptOutcome.transportError ∧
          i + 1 + d < MAX_CALLBACK_RETRIES - 1 then some (2 ^ (i + 1 + d)) else none)
      (List.range (j - (i + 1))) := by
    apply List.filterMap_congr
    intro d _
    simp only [Function.comp_apply, Nat.succ_eq_add_one]
    rw [show i + (d + 1) = i + 1 + d by omega]
  by_cases hP : oracle i = AttemptOutcome.transportError ∧ i < MAX_CALLBACK_RETRIES - 1
  · simp [Nat.add_zero, hP, hshift]
  · simp [Nat.add_zero, hP, hshift]

theorem runAttemptsAux_spec (oracle : Nat → AttemptOutcome) :
    ∀ fuel i, MAX_CALLBACK_RETRIES ≤ fuel + i →
      i ≤ (runAttemptsAux oracle fuel i).2.1 ∧
      (runAttemptsAux oracle fuel i).2.1 ≤ max i MAX_CALLBACK_RETRIES ∧
      (runAttemptsAux oracle fuel i).2.2 =
        sleepsSpec oracle i (runAttemptsAux oracle fuel i).2.1 := by
  intro fuel
  induction fuel with
  | zero =>
    intro i hi
    refine ⟨le_refl i, le_max_left _ _, ?_⟩
    simp [runAttemptsAux, sleepsSpec_self]
  | succ fuel ih =>
    intro i hi
    by_cases hlt : i < MAX_CALLBACK_RETRIES
    · cases ho : oracle i with
      | response status =>
        by_cases hs : status = 200
        · subst hs
          refine ⟨by simp [runAttemptsAux, hlt, ho], ?_, ?_⟩
          · simp only [runAttemptsAux, hlt, if_true, ho]
            omega
          · simp only [runAttemptsAux, hlt, if_true, ho, if_pos rfl]
            rw [sleepsSpec_cons oracle i (i + 1) (by omega), sleepsSpec_self]
            simp [ho]
        · have hrec := ih (i + 1) (by omega)
          have hred : runAttemptsAux oracle (fuel + 1) i =
              runAttemptsAux oracle fuel (i + 1) := by
            simp [runAttemptsAux, hlt, ho, hs]
          rw [hred]
          refine ⟨by omega, by omega, ?_⟩
          rw [hrec.2.2, sleepsSpec_cons oracle i _ (by omega)]
          simp [ho]
      | transportError =>
        have hrec := ih (i + 1) (by omega)
        have hred : runAttemptsAux oracle (fuel + 1) i =
            ((runAttemptsAux oracle fuel (i + 1)).1,
             (runAttemptsAux oracle fuel (i + 1)).2.1,
             (if i < MAX_CALLBACK_RETRIES - 1 then [2 ^ i] else []) ++
               (runAttemptsAux oracle fuel (i + 1)).2.2) := by
          simp [runAttemptsAux, hlt, ho]
        rw [hred]
        refine ⟨by simp; omega, by simp; omega, ?_⟩
        simp only []
        rw [hrec.2.2, sleepsSpec_cons oracle i _ (by omega)]
        by_cases hlast : i < MAX_CALLBACK_RETRIES - 1
        · simp [ho, hlast]
        · simp [ho, hlast]
    · have hred : runAttemptsAux oracle (fuel + 1) i = (false, i, []) := by
        simp [runAttemptsAux, hlt]
      rw [hred]
      exact ⟨le_refl i, le_max_left _ _, by simp [sleepsSpec_self]⟩

/-- Past the breaker gate, the dispatch's attempt count and sleeps are
those of the retry loop started at attempt 0. -/
theorem send_callback_attempts_sleeps (m : CbMetrics) (now : Nat)
    (oracle : Nat → AttemptOutcome)
    (hgate : ¬(m.circuit_breaker_active = true ∧ now < m.circuit_breaker_until)) :
    (send_callback m now oracle).attempts = (runAttempts oracle 0).2.1 ∧
    (send_callback m now oracle).sleeps = (runAttempts oracle 0).2.2 := by
  have hb : (m.circuit_breaker_active && decide (now < m.circuit_breaker_until)) = false := by
    cases ha : m.circuit_breaker_active
    · simp
    · simp only [Bool.true_and, decide_eq_false_iff_not]
      intro hlt
      exact hgate ⟨ha, hlt⟩
  unfold send_callback
  rw [hb]
  simp only [Bool.false_eq_true, if_false]
  split <;> simp

/-- C5 counterexample: a dispatch whose three attempts all return a
non-200 HTTP status makes all three attempts but performs no backoff
sleep at all — the sleep sits in the exception handler only (main.py
lines 423-428), so a non-200 response never sleeps. -/
theorem C5_counterexample :
    (send_callback { } 100 (fun _ => .response 500)).attempts = 3 ∧
    (send_callback { } 100 (fun _ => .response 500)).sleeps = [] := by
  exact ⟨by decide, by decide⟩

/-- C5 amended: a dispatch that passes the breaker gate attempts
delivery at most 3 times, and sleeps `2^i` seconds (1s then 2s) after
attempt `i` exactly when that attempt raised a transport error and was
not the final possible attempt; an attempt that failed with a non-200
HTTP status is followed by no sleep, and no sleep ever follows the
last attempt. -/
theorem C5_retry_backoff (m : CbMetrics) (now : Nat) (oracle : Nat → AttemptOutcome)
    (hgate : ¬(m.circuit_breaker_active = true ∧ now < m.circuit_breaker_until)) :
    (send_callback m now oracle).attempts ≤ MAX_CALLBACK_RETRIES ∧
    (send_callback m now oracle).sleeps =
      sleepsSpec oracle 0 (send_callback m now oracle).attempts := by
  obtain ⟨ha, hs⟩ := send_callback_attempts_sleeps m now oracle hgate
  have hrun := runAttemptsAux_spec oracle MAX_CALLBACK_RETRIES 0 (by omega)
  have hr : runAttempts oracle 0 = runAttemptsAux oracle MAX_CALLBACK_RETRIES 0 := rfl
  rw [ha, hs, hr]
  refine ⟨?_, ?_⟩
  · have := hrun.2.1
    omega
  · exact hrun.2.2

theorem C5_retry_backoff_witness :
    (send_callback { } 100 (fun _ => .transportError)).attempts ≤ MAX_CALLBACK_RETRIES ∧
    (send_callback { } 100 (fun _ => .transportError)).sleeps =
      sleepsSpec (fun _ => .transportError) 0
        (send_callback { } 100 (fun _ => .transportError)).attempts :=
  C5_retry_backoff { } 100 (fun _ => .transportError) (by decide)

/-! ## C6: fault containment -/

/-- C6 counterexample: with a session at interaction count 0, a fault
raised after the count increment (mutating step 4 of the handler body)
yields the fallback reply, but the stored session now has count 1 —
the message's partial mutations persist, the state is not left
unchanged. -/
theorem C6_counterexample :
    (honeypotFaulted [("sess-1", freshSession 0)] "sess-1" "hello kind sir" 3 0 4).2 =
      fallbackReply ∧
    (storeGet (honeypotFaulted [("sess-1", freshSession 0)] "sess-1" "hello kind sir"
        3 0 4).1 "sess-1").map SessionState.count = some 1 ∧
    (storeGet [("sess-1", freshSession 0)] "sess-1").map SessionState.count = some 0 := by
  exact ⟨rfl, by decide, by decide⟩

/-- C6 amended: an internal fault at any point of the handler body is
absorbed — the caller always receives the fixed non-empty fallback
reply — but the session mutations performed before the fault persist;
only a fault raised before the first mutating step leaves the store
unchanged. -/
theorem C6_fault_contained (st : Store) (id msg : String) (now rand : Nat) (k : Nat) :
    (honeypotFaulted st id msg now rand k).2 = fallbackReply ∧
    fallbackReply ≠ "" ∧
    (k = 0 → (honeypotFaulted st id msg now rand k).1 = st) := by
  refine ⟨rfl, by decide, ?_⟩
  intro hk
  subst hk
  rfl

theorem C6_fault_contained_witness :
    (honeypotFaulted [] "sess-1" "hello kind sir" 0 0 0).1 = [] :=
  (C6_fault_contained [] "sess-1" "hello kind sir" 0 0 0).2.2 rfl

/-! ## C8: session-store capacity and LRU order -/

theorem enforceAux_eq (fuel : Nat) :
    ∀ st : Store, st.length - fuel ≤ MAX_SESSIONS →
      enforceAux fuel st = st.drop (st.length - MAX_SESSIONS) := by
  induction fuel with
  | zero =>
    intro st h
    have h0 : st.length - MAX_SESSIONS = 0 := by omega
    rw [show enforceAux 0 st = st from rfl, h0, List.drop_zero]
  | succ fuel ih =>
    intro st h
    rw [show enforceAux (fuel + 1) st =
      (if MAX_SESSIONS < st.length then enforceAux fuel st.tail else st) from rfl]
    by_cases hlt : MAX_SESSIONS < st.length
    · have htl := ih st.tail (by simp only [List.length_tail]; omega)
      rw [if_pos hlt, htl, ← List.drop_one, List.drop_drop]
      have hidx : 1 + ((List.drop 1 st).length - MAX_SESSIONS) =
          st.length - MAX_SESSIONS := by
        simp only [List.length_drop]
        omega
      rw [hidx]
    · have h0 : st.length - MAX_SESSIONS = 0 := by omega
      rw [if_neg hlt, h0, List.drop_zero]

/-- `enforce_session_limit` removes exactly the oldest entries beyond
the capacity ceiling, in order. -/
theorem enforce_session_limit_eq (st : Store) :
    enforce_session_limit st = st.drop (st.length - MAX_SESSIONS) :=
  enforceAux_eq st.length st (by omega)

theorem enforce_session_limit_length (st : Store) :
    (enforce_session_limit st).length ≤ MAX_SESSIONS := by
  rw [enforce_session_limit_eq]
  simp only [List.length_drop]
  omega

theorem storeGet_eq_none_iff (st : Store) (id : String) :
    storeGet st id = none ↔ ∀ p ∈ st, (p.1 == id) = false := by
  unfold storeGet
  simp [List.find?_eq_none]

theorem storeGet_append_single (st : Store) (id : String) (s : SessionState)
    (h : ∀ p ∈ st, (p.1 == id) = false) :
    storeGet (st ++ [(id, s)]) id = some s := by
  induction st with
  | nil => simp [storeGet, List.find?]
  | cons q rest ih =>
    have hq := h q (List.mem_cons_self q rest)
    have ih' := ih (fun p hp => h p (List.mem_cons_of_mem q hp))
    simpa [storeGet, List.find?, hq] using ih'

theorem filter_keys_ne (st : Store) (id : String) :
    ∀ p ∈ st.filter (fun p => p.1 != id), (p.1 == id) = false := by
  intro p hp
  have hmem := List.of_mem_filter hp
  simpa [bne] using hmem

theorem moveToEnd_of_some (st : Store) (id : String) (s : SessionState)
    (h : storeGet st id = some s) :
    moveToEnd st id = st.filter (fun p => p.1 != id) ++ [(id, s)] := by
  simp [moveToEnd, h]

theorem storeGet_filter_append (st : Store) (id : String) (s : SessionState) :
    storeGet (st.filter (fun p => p.1 != id) ++ [(id, s)]) id = some s :=
  storeGet_append_single _ id s (filter_keys_ne st id)

theorem filter_eq_self_of_keys_ne (st : Store) (id : String)
    (h : ∀ p ∈ st, (p.1 == id) = false) :
    st.filter (fun p => p.1 != id) = st := by
  apply List.filter_eq_self.mpr
  intro p hp
  simp [bne, h p hp]

theorem map_update_id_of_keys_ne (st : Store) (id : String)
    (f : SessionState → SessionState)
    (h : ∀ p ∈ st, (p.1 == id) = false) :
    (st.map fun p => if p.1 == id then (p.1, f p.2) else p) = st := by
  induction st with
  | nil => rfl
  | cons q rest ih =>
    have hq := h q (List.mem_cons_self q rest)
    simp only [List.map_cons, hq, Bool.false_eq_true, if_false]
    rw [ih fun p hp => h p (List.mem_cons_of_mem q hp)]

theorem updateAt_append_single (st : Store) (id : String) (s : SessionState)
    (f : SessionState → SessionState)
    (h : ∀ p ∈ st, (p.1 == id) = false) :
    updateAt (st ++ [(id, s)]) id f = st ++ [(id, f s)] := by
  unfold updateAt
  rw [List.map_append]
  congr 1
  · exact map_update_id_of_keys_ne st id f h
  · simp

theorem stAfterCreate_get (st : Store) (id : String) (now : Nat) :
    ∃ s : SessionState, storeGet (stAfterCreate st id now) id = some s := by
  unfold stAfterCreate
  cases hg : storeGet st id with
  | some s =>
    refine ⟨s, ?_⟩
    simpa [hg] using hg
  | none =>
    refine ⟨freshSession now, ?_⟩
    simp only [hg, Option.isSome_none, Bool.false_eq_true, if_false]
    rw [enforce_session_limit_eq]
    have hlen : (st ++ [(id, freshSession now)]).length = st.length + 1 := by simp
    rw [hlen]
    have hM : (1 : Nat) ≤ MAX_SESSIONS := by decide
    rw [List.drop_append_of_le_length (by omega)]
    apply storeGet_append_single
    intro p hp
    exact (storeGet_eq_none_iff st id).mp hg p (List.drop_subset _ _ hp)

/-- The store after a handled message: the touched session's entry sits
at the most-recently-used end, holding the processed state; every other
surviving entry keeps its order. -/
theorem handleMessage_store_eq (st : Store) (id msg : String) (now rand : Nat) :
    ∃ s : SessionState, storeGet (stAfterCreate st id now) id = some s ∧
      (handleMessage st id msg now rand).1 =
        (stAfterCreate st id now).filter (fun p => p.1 != id) ++
          [(id, (processSession s msg now rand).1)] := by
  obtain ⟨s, hs⟩ := stAfterCreate_get st id now
  refine ⟨s, hs, ?_⟩
  simp only [handleMessage]
  rw [moveToEnd_of_some _ _ _ hs, storeGet_filter_append]
  simp only [Option.getD_some]
  exact updateAt_append_single _ id s _ (filter_keys_ne _ id)

theorem filter_length_lt_of_get_some (st : Store) (id : String) (s : SessionState)
    (h : storeGet st id = some s) :
    (st.filter (fun p => p.1 != id)).length < st.length := by
  induction st with
  | nil => simp [storeGet] at h
  | cons q rest ih =>
    by_cases hq : (q.1 == id) = true
    · have hqb : (q.1 != id) = false := by simp [bne, hq]
      have hlen := List.length_filter_le (fun p => p.1 != id) rest
      rw [List.filter_cons, hqb]
      simp only [Bool.false_eq_true, if_false, List.length_cons]
      omega
    · have hq' : (q.1 == id) = false := by simpa using hq
      have hqb : (q.1 != id) = true := by simp [bne, hq']
      have h' : storeGet rest id = some s := by
        simpa [storeGet, List.find?, hq'] using h
      have hrec := ih h'
      rw [List.filter_cons, hqb]
      simp only [if_true, List.length_cons]
      omega

theorem stAfterCreate_length (st : Store) (id : String) (now : Nat)
    (h : st.length ≤ MAX_SESSIONS) :
    (stAfterCreate st id now).length ≤ MAX_SESSIONS := by
  unfold stAfterCreate
  split
  · exact h
  · exact enforce_session_limit_length _

/-- C8: after handling any message, (i) a store within capacity stays
within capacity (at most 500 sessions); (ii) the handled session is at
the most-recently-used end of the recency order; (iii) registering an
unseen identifier evicts exactly the oldest entries beyond capacity,
oldest first, keeping the remaining order — in particular, at exactly
500 sessions the single least-recently-touched one is evicted. -/
theorem C8_lru_store (st : Store) (id msg : String) (now rand : Nat) :
    (st.length ≤ MAX_SESSIONS →
      (handleMessage st id msg now rand).1.length ≤ MAX_SESSIONS) ∧
    ((handleMessage st id msg now rand).1.map Prod.fst).getLast? = some id ∧
    (storeGet st id = none →
      (handleMessage st id msg now rand).1.map Prod.fst =
        (st.map Prod.fst).drop (st.length + 1 - MAX_SESSIONS) ++ [id]) := by
  obtain ⟨s, hs, hshape⟩ := handleMessage_store_eq st id msg now rand
  refine ⟨?_, ?_, ?_⟩
  · intro h500
    rw [hshape]
    have h1 : (stAfterCreate st id now).length ≤ MAX_SESSIONS :=
      stAfterCreate_length st id now h500
    have h2 := filter_length_lt_of_get_some _ id s hs
    simp only [List.length_append, List.length_cons, List.length_nil]
    omega
  · rw [hshape, List.map_append]
    simp [List.getLast?_concat]
  · intro hnone
    have hsa : stAfterCreate st id now =
        st.drop (st.length + 1 - MAX_SESSIONS) ++ [(id, freshSession now)] := by
      unfold stAfterCreate
      simp only [hnone, Option.isSome_none, Bool.false_eq_true, if_false]
      rw [enforce_session_limit_eq]
      have hlen : (st ++ [(id, freshSession now)]).length = st.length + 1 := by simp
      rw [hlen]
      have hM : (1 : Nat) ≤ MAX_SESSIONS := by decide
      exact List.drop_append_of_le_length (by omega)
    have hkeys : ∀ p ∈ st.drop (st.length + 1 - MAX_SESSIONS), (p.1 == id) = false :=
      fun p hp => (storeGet_eq_none_iff st id).mp hnone p (List.drop_subset _ _ hp)
    rw [hshape, hsa, List.filter_append, filter_eq_self_of_keys_ne _ id hkeys]
    simp [List.map_append, List.map_drop, bne]

theorem C8_lru_store_witness :
    (handleMessage [] "sess-1" "hello kind sir" 7 0).1.length ≤ MAX_SESSIONS ∧
    ((handleMessage [] "sess-1" "hello kind sir" 7 0).1.map Prod.fst).getLast? =
      some "sess-1" ∧
    (handleMessage [] "sess-1" "hello kind sir" 7 0).1.map Prod.fst =
      (([] : Store).map Prod.fst).drop (([] : Store).length + 1 - MAX_SESSIONS) ++
        ["sess-1"] :=
  ⟨(C8_lru_store [] "sess-1" "hello kind sir" 7 0).1 (by decide),
   (C8_lru_store [] "sess-1" "hello kind sir" 7 0).2.1,
   (C8_lru_store [] "sess-1" "hello kind sir" 7 0).2.2 (by decide)⟩

end Honeypot
